import Mathlib

/-!
Shallow embedding of the GitLab Registry Explorer VS Code extension
(src/extension.ts, manifest src/unnamed/part_000) and verification of the
frozen claims about it.

Modelling conventions:
* JavaScript strings are modelled by Lean `String`; the string operations the
  source uses (toLowerCase, trim, includes, startsWith, slice, substring,
  split, lastIndexOf) are reimplemented on the character list so that the
  kernel can evaluate them.  The sources only ever feed ASCII/BMP strings to
  these operations, where the two notions of string agree position by
  position.
* JavaScript numbers are modelled by `Nat` / `Int` / `Rat` (the byte-size
  formatter divides integers below 2 ^ 53 by powers of 1024, which is exact
  in IEEE doubles, so exact rational arithmetic is a faithful model there).
* `Array.prototype.sort(cmp)` is modelled by a stable insertion sort
  (`jsSortBy`): ECMAScript requires the sort to be stable, and for a
  consistent comparator the stable sorted permutation is unique, so any
  stable sort is a faithful model.  Per the ECMAScript `SortCompare` rule a
  comparator result of NaN is treated as +0 (the two elements compare equal).
* `Map` and `Set` are modelled by insertion-ordered association lists.
* Network calls are modelled as oracles (explicit function parameters): a
  fetch is represented by the data it would produce.
* The host pieces (event emitter, globalState persistence) are modelled as
  explicit state fields: `changeEvents` counts firings of
  `_onDidChangeTreeData`, `persistedProjects` is the value stored under the
  `cachedProjects` key of `globalState`.
-/

/-! ## JavaScript string primitives (character-list models) -/

/-- Model of `String.prototype.toLowerCase` (agrees on ASCII, which is all
the repository ever lowercases). -/
def lowerStr (s : String) : String := ⟨s.data.map Char.toLower⟩

/-- Model of `String.prototype.trim`. -/
def trimStr (s : String) : String :=
  ⟨((s.data.dropWhile Char.isWhitespace).reverse.dropWhile Char.isWhitespace).reverse⟩

/-- Model of `hay.includes(sub)`. -/
def strIncludes (hay sub : String) : Bool :=
  (List.range (hay.data.length + 1)).any (fun i => sub.data.isPrefixOf (hay.data.drop i))

/-- Model of `s.startsWith(p)`. -/
def strStartsWith (s p : String) : Bool := p.data.isPrefixOf s.data

/-- Model of `s.slice(n)` (drop the first n UTF-16 units; the repository only
slices BMP strings, where units and characters coincide). -/
def sliceFrom (s : String) (n : Nat) : String := ⟨s.data.drop n⟩

/-- Model of `s.substring(0, s.lastIndexOf(sl))`: everything before the last
slash; the empty string when there is no slash (lastIndexOf returns -1 and
`substring(0, -1)` clamps to the empty string). -/
def beforeLastSlash (s : String) : String :=
  ⟨(s.data.reverse.dropWhile (fun c => c ≠ '/')).reverse.dropLast⟩

/-- Model of `s.split(sl)[0]`. -/
def firstSegment (s : String) : String := ⟨s.data.takeWhile (fun c => c ≠ '/')⟩

/-- Model of `s.split(sl).pop()`. -/
def lastSegment (s : String) : String := ⟨(s.data.reverse.takeWhile (fun c => c ≠ '/')).reverse⟩

/-- Decimal digit character. -/
def digitChar (n : Nat) : Char := Char.ofNat (48 + n)

/-- Decimal digits of a natural number, fuelled so that the recursion is
structural and kernel-reducible. -/
def natToDigits : Nat → Nat → List Char
  | 0, _ => []
  | f + 1, n => if n < 10 then [digitChar n] else natToDigits f (n / 10) ++ [digitChar (n % 10)]

/-- Model of JavaScript number-to-string conversion for non-negative
integers (the only values the repository stringifies). -/
def natToStr (n : Nat) : String := ⟨natToDigits (n + 1) n⟩

/-- The query normalisation the provider applies everywhere:
`query.toLowerCase().trim()`. -/
def jsNormalizeQuery (q : String) : String := trimStr (lowerStr q)

/-! ## JavaScript sort model -/

/-- Insert x behind every element y with le y x (stable insertion step). -/
def insertOrdered {α : Type} (le : α → α → Bool) (x : α) : List α → List α
  | [] => [x]
  | y :: ys => if le y x then y :: insertOrdered le x ys else x :: y :: ys

/-- Stable sort: fold the list into sorted order, later elements going after
earlier ties.  Models `Array.prototype.sort` with comparator `cmp`, where
`le a b` means `cmp(a, b) <= 0` after the ECMAScript NaN-to-+0 coercion. -/
def jsSortBy {α : Type} (le : α → α → Bool) (l : List α) : List α :=
  l.foldl (fun acc x => insertOrdered le x acc) []

/-- Code-unit lexicographic Bool order on strings: the default (argument-less)
`Array.prototype.sort()` comparator on BMP strings. -/
def charListLe : List Char → List Char → Bool
  | [], _ => true
  | _ :: _, [] => false
  | a :: as, b :: bs => if a = b then charListLe as bs else decide (a < b)

/-- String order used by the default `sort()` on the folder name arrays. -/
def strLeBool (a b : String) : Bool := charListLe a.data b.data

/-! ## JavaScript Map / Set models (insertion-ordered association lists) -/

/-- Model of `Map.prototype.get`. -/
def mapGet {α : Type} (m : List (Nat × α)) (k : Nat) : Option α :=
  (m.find? (fun p => p.1 == k)).map (fun p => p.2)

/-- Model of `Map.prototype.set` (update in place, else append). -/
def mapSet {α : Type} (m : List (Nat × α)) (k : Nat) (v : α) : List (Nat × α) :=
  if m.any (fun p => p.1 == k) then m.map (fun p => if p.1 == k then (k, v) else p)
  else m ++ [(k, v)]

/-- Model of `Map.prototype.delete`. -/
def mapDelete {α : Type} (m : List (Nat × α)) (k : Nat) : List (Nat × α) :=
  m.filter (fun p => p.1 != k)

/-- Model of `Set.prototype.add`. -/
def setAdd (s : List Nat) (k : Nat) : List Nat :=
  if s.contains k then s else s ++ [k]

/-- Model of `Set.prototype.delete`. -/
def setDelete (s : List Nat) (k : Nat) : List Nat := s.filter (fun x => x != k)

/-- Insertion-ordered deduplication: `Set` built by adding elements in list
order, read back with `Array.from`. -/
def insertionDedup (l : List String) : List String :=
  l.foldl (fun acc x => if acc.contains x then acc else acc ++ [x]) []

/-! ## Data model (interfaces GitLabProject / GitLabRegistryRepo / GitLabTag) -/

/-- GitLabProject record (extension.ts lines 5-13); the nested
`namespace.full_path` is flattened into one field. -/
structure GitLabProject where
  id : Nat
  name : String
  path_with_namespace : String
  namespace_full_path : String
  container_registry_enabled : Bool
deriving DecidableEq

/-- GitLabRegistryRepo record (lines 15-19). -/
structure GitLabRegistryRepo where
  id : Nat
  name : String
  path : String
deriving DecidableEq

/-- GitLabTag record (lines 21-25).  `created_at` is the epoch-milliseconds
value that `new Date(created_at).getTime()` yields for the timestamp string;
`none` models an absent timestamp (for which `new Date(undefined || "")` is
an Invalid Date whose `getTime()` is NaN).  `total_size` is the byte count. -/
structure GitLabTag where
  name : String
  created_at : Option Int
  total_size : Option Nat
deriving DecidableEq

/-! ## Byte-size formatter (extension.ts lines 27-38)

The source divides an IEEE double by 1024 at most four times; for integer
inputs below 2 ^ 53 every intermediate value is exactly representable, so the
computation is modelled exactly in the rationals. -/

/-- The unit sequence of `formatBytes`. -/
def formatBytesUnits : List String := ["B", "KB", "MB", "GB", "TB"]

/-- The `while (size >= 1024 && unitIndex < units.length - 1)` loop:
a larger unit remains exactly when the tail of the unit list is nonempty. -/
def formatGo : ℚ → List String → ℚ × String
  | size, [] => (size, "")
  | size, [u] => (size, u)
  | size, u :: u2 :: rest =>
      if 1024 ≤ size then formatGo (size / 1024) (u2 :: rest) else (size, u)

/-- Two-digit zero-padded rendering of a remainder below 100. -/
def pad2 (r : Nat) : String := if r < 10 then "0" ++ natToStr r else natToStr r

/-- Model of `x.toFixed(2)` for 0 <= x < 10 ^ 21 (the fixed-notation domain
of the ECMAScript spec): the integer n closest to 100 * x, ties toward the
larger n, printed with two digits after the point. -/
def toFixed2 (q : ℚ) : String :=
  natToStr ((⌊q * 100 + 1 / 2⌋).toNat / 100) ++ "." ++ pad2 ((⌊q * 100 + 1 / 2⌋).toNat % 100)

/-- formatBytes (extension.ts lines 28-38). -/
def formatBytes (bytes : Option ℚ) : String :=
  match bytes with
  | none => "Unknown size"
  | some b =>
      if b = 0 then "Unknown size"
      else toFixed2 (formatGo b formatBytesUnits).1 ++ " " ++ (formatGo b formatBytesUnits).2

/-- A string consisting of an integer part, a point, and exactly two decimal
digits. -/
def twoDecimalString (s : String) : Prop :=
  ∃ m r, r < 100 ∧ s = natToStr m ++ "." ++ pad2 r

/-! ## Provider state (fields of GitLabRegistryProvider, lines 82-89) -/

/-- The mutable state of GitLabRegistryProvider plus the two host-side
collaborators it writes: `persistedProjects` is the globalState value under
the cachedProjects key, `changeEvents` counts firings of the change
emitter. -/
structure ProviderState where
  cachedProjects : List GitLabProject
  cachedTags : List (Nat × List GitLabTag)
  showAllTagsForRepo : List Nat
  searchQuery : String
  filterTagsQueries : List (Nat × String)
  persistedProjects : List GitLabProject
  changeEvents : Nat
deriving DecidableEq

/-- Provider state at construction, before `loadCachedProjects` finds any
persisted value. -/
def initialState : ProviderState :=
  { cachedProjects := [], cachedTags := [], showAllTagsForRepo := [],
    searchQuery := "", filterTagsQueries := [], persistedProjects := [],
    changeEvents := 0 }

/-! ## State mutators (extension.ts lines 97-177) -/

/-- refresh (lines 97-104): empties the project cache, the tag cache, the
show-all set and the tag-filter map, persists the (now empty) project list,
and fires the change event.  It does not touch `searchQuery`. -/
def refresh (st : ProviderState) : ProviderState :=
  { st with cachedProjects := [], cachedTags := [], showAllTagsForRepo := [],
            filterTagsQueries := [], persistedProjects := [],
            changeEvents := st.changeEvents + 1 }

/-- setSearchQuery (lines 106-109). -/
def setSearchQuery (st : ProviderState) (query : String) : ProviderState :=
  { st with searchQuery := jsNormalizeQuery query, changeEvents := st.changeEvents + 1 }

/-- setFilterTagsQuery (lines 116-123): `if (query)` is the JavaScript string
truthiness test, so the delete branch runs only for the empty string; any
nonempty string (whitespace included) is stored after normalisation. -/
def setFilterTagsQuery (st : ProviderState) (repoId : Nat) (query : String) : ProviderState :=
  if query = "" then
    { st with filterTagsQueries := mapDelete st.filterTagsQueries repoId,
              changeEvents := st.changeEvents + 1 }
  else
    { st with filterTagsQueries := mapSet st.filterTagsQueries repoId (jsNormalizeQuery query),
              changeEvents := st.changeEvents + 1 }

/-- getFilterTagsQuery (lines 125-127): `get(repoId) || ""`. -/
def getFilterTagsQuery (st : ProviderState) (repoId : Nat) : String :=
  (mapGet st.filterTagsQueries repoId).getD ""

/-- getCachedTags (lines 129-131): `get(repoId) || []`. -/
def getCachedTags (st : ProviderState) (repoId : Nat) : List GitLabTag :=
  (mapGet st.cachedTags repoId).getD []

/-- clearFilters (lines 137-144); the collapse-all command it issues is a
host UI action outside the state. -/
def clearFilters (st : ProviderState) : ProviderState :=
  { st with searchQuery := "", filterTagsQueries := [], showAllTagsForRepo := [],
            changeEvents := st.changeEvents + 1 }

/-- clearFilterForRepo (lines 146-149). -/
def clearFilterForRepo (st : ProviderState) (repoId : Nat) : ProviderState :=
  { st with filterTagsQueries := mapDelete st.filterTagsQueries repoId,
            changeEvents := st.changeEvents + 1 }

/-- showAllTags (lines 151-154). -/
def showAllTags (st : ProviderState) (repoId : Nat) : ProviderState :=
  { st with showAllTagsForRepo := setAdd st.showAllTagsForRepo repoId,
            changeEvents := st.changeEvents + 1 }

/-- clearShowAllTagsForRepo (lines 156-159). -/
def clearShowAllTagsForRepo (st : ProviderState) (repoId : Nat) : ProviderState :=
  { st with showAllTagsForRepo := setDelete st.showAllTagsForRepo repoId,
            changeEvents := st.changeEvents + 1 }

/-- The filter applied to the project list (lines 172-177). -/
def filteredProjectsOf (projects : List GitLabProject) (searchQuery : String) :
    List GitLabProject :=
  if searchQuery = "" then projects
  else projects.filter (fun p => strIncludes (lowerStr p.path_with_namespace) searchQuery)

/-- getFilteredProjects (lines 172-177). -/
def getFilteredProjects (st : ProviderState) : List GitLabProject :=
  filteredProjectsOf st.cachedProjects st.searchQuery

/-! ## Tag fetching (fetchRegistryTags, extension.ts lines 408-440) -/

/-- The per-tag detail payload (`created_at`, `total_size`) of
`GET .../tags/{name}`; a failed detail request is `none`. -/
structure TagDetail where
  created_at : Option Int
  total_size : Option Nat
deriving DecidableEq

/-- The enrichment step (lines 422-435): a tag whose detail request fails
degrades to a name-only record, a successful one carries the detail
fields. -/
def enrichTag (detail : String → Option TagDetail) (name : String) : GitLabTag :=
  match detail name with
  | none => { name := name, created_at := none, total_size := none }
  | some d => { name := name, created_at := d.created_at, total_size := d.total_size }

/-- Enrichment of the whole listing (`Promise.all` over the tag names;
concurrency is irrelevant to the resulting list, which keeps listing
order). -/
def enrichTags (detail : String → Option TagDetail) (listing : List String) : List GitLabTag :=
  listing.map (enrichTag detail)

/-- The sort comparator of line 438,
`(a, b) => new Date(b.created_at || "").getTime() - new Date(a.created_at || "").getTime()`,
turned into the Boolean relation "a may stay in front of b", i.e.
`cmp(a, b) <= 0`: when both timestamps parse this is time(b) <= time(a)
(descending); when either side is absent, `new Date("")` is an Invalid Date,
`getTime()` is NaN, the subtraction is NaN, and the ECMAScript SortCompare
step coerces NaN to +0 - the pair compares equal, so the relation holds. -/
def tagSortLe (a b : GitLabTag) : Bool :=
  match a.created_at, b.created_at with
  | some x, some y => decide (y ≤ x)
  | _, _ => true

/-- The `enrichedTags.sort(...)` call of lines 437-439. -/
def sortTags (l : List GitLabTag) : List GitLabTag := jsSortBy tagSortLe l

/-- fetchRegistryTags (lines 408-440): the paginated listing (accumulated
until the first empty page) is taken as a given list of names, then enriched
and sorted; this is the value cached per repository id. -/
def fetchRegistryTagsModel (detail : String → Option TagDetail) (listing : List String) :
    List GitLabTag :=
  sortTags (enrichTags detail listing)

/-! ## Tree items (TreeItemWithContext, extension.ts lines 41-78) -/

/-- The context discriminant of a tree item. -/
inductive NodeCtx
  | folder
  | project
  | repo
  | tag
  | filter
  | showAllTags
deriving DecidableEq

/-- The contextValue string the constructor assigns for each context. -/
def ctxName : NodeCtx → String
  | NodeCtx.folder => "folder"
  | NodeCtx.project => "project"
  | NodeCtx.repo => "repo"
  | NodeCtx.tag => "tag"
  | NodeCtx.filter => "filter"
  | NodeCtx.showAllTags => "showAllTags"

/-- The data fields of TreeItemWithContext (collapsible state, icons,
tooltips and attached commands are pure presentation and are not
modelled). -/
structure TreeItemModel where
  label : String
  context : NodeCtx
  contextValue : String
  fullPath : Option String
  projectId : Option Nat
  repoId : Option Nat
  tagName : Option String
  imageUrl : Option String
deriving DecidableEq

/-- The TreeItemWithContext constructor (lines 42-78): contextValue is the
context name, except that a filter item whose label starts with "Filter: "
becomes filterWithClear. -/
def mkTreeItem (label : String) (context : NodeCtx) (fullPath : Option String)
    (projectId repoId : Option Nat) (tagName imageUrl : Option String) : TreeItemModel :=
  { label := label, context := context,
    contextValue :=
      if context = NodeCtx.filter ∧ strStartsWith label "Filter: " = true then "filterWithClear"
      else ctxName context,
    fullPath := fullPath, projectId := projectId, repoId := repoId,
    tagName := tagName, imageUrl := imageUrl }

/-! ## Tree materialisation (getChildren, extension.ts lines 179-353) -/

/-- Truthiness of the optional numeric id fields (`element.projectId &&`):
absent or zero is falsy. -/
def optNatTruthy : Option Nat → Bool
  | some n => n != 0
  | none => false

/-- Truthiness of the token read from secret storage: absent or empty is
falsy. -/
def tokenTruthy : Option String → Bool
  | some s => s != ""
  | none => false

/-- The label of a tag item (line 322); rendering an epoch value with
`toLocaleString` is locale-dependent and therefore supplied as the
`renderDate` parameter. -/
def tagItemLabel (renderDate : Int → String) (tag : GitLabTag) : String :=
  tag.name ++ "  —  " ++
    (match tag.created_at with
     | some t => renderDate t
     | none => "unknown date") ++
    " (" ++ formatBytes (tag.total_size.map (fun n => (n : ℚ))) ++ ")"

/-- The derived image reference of line 321; when the project lookup fails
the JavaScript template interpolates the literal string undefined. -/
def tagImageUrl (projectPathStr tagName : String) : String :=
  "registry.gitlab.com/" ++ projectPathStr ++ ":" ++ tagName

/-- The repository branch of getChildren (lines 290-349), applied to the
cached (or just fetched) tag list: filter, filter-input item, empty
placeholder, display cutoff, show-all override, show-more item. -/
def repoChildrenFromTags (renderDate : Int → String) (projectPathStr : String)
    (fullPath : Option String) (pid rid : Nat) (tags : List GitLabTag)
    (filterQ : String) (showAll : Bool) (maxTagsToDisplay : Nat) : List TreeItemModel :=
  let filteredTags :=
    if filterQ = "" then tags
    else tags.filter (fun tag => strIncludes (lowerStr tag.name) filterQ)
  let filterItem :=
    mkTreeItem (if filterQ = "" then "Filter tags..." else "Filter: " ++ filterQ)
      NodeCtx.filter fullPath (some pid) (some rid) none none
  if filteredTags = [] then
    [filterItem,
     mkTreeItem "No tags match the filter" NodeCtx.tag none none none none none]
  else
    let tagsToShow := if showAll then filteredTags else filteredTags.take maxTagsToDisplay
    let tagItems := tagsToShow.map (fun tag =>
      mkTreeItem (tagItemLabel renderDate tag) NodeCtx.tag fullPath (some pid) (some rid)
        (some tag.name) (some (tagImageUrl projectPathStr tag.name)))
    let remainingTags := filteredTags.length - tagsToShow.length
    let showAllItems :=
      if 0 < remainingTags then
        [mkTreeItem ("Show All Tags… (" ++ natToStr remainingTags ++ " more)")
          NodeCtx.showAllTags fullPath (some pid) (some rid) none none]
      else []
    filterItem :: (tagItems ++ showAllItems)

/-- A search-mode project item (lines 198-209): namespace-annotated label. -/
def projectSearchItem (p : GitLabProject) : TreeItemModel :=
  mkTreeItem (p.name ++ " (" ++ beforeLastSlash p.path_with_namespace ++ ")")
    NodeCtx.project (some p.path_with_namespace) (some p.id) none none none

/-- Label order induced by the supplied localeCompare (the comparator of
lines 210 and 258): a may stay in front of b when the comparison is not
greater. -/
def labelLe (localeCmp : String → String → Ordering) (a b : TreeItemModel) : Bool :=
  localeCmp a.label b.label != Ordering.gt

/-- The folder items of the no-search root branch (lines 212-219): distinct
top-level namespace segments, default-sorted. -/
def rootFolderItems (projects : List GitLabProject) : List TreeItemModel :=
  (jsSortBy strLeBool
      (insertionDedup (projects.map (fun p => firstSegment p.namespace_full_path)))).map
    (fun root => mkTreeItem root NodeCtx.folder (some root) none none none none)

/-- The root branch of getChildren (lines 190-220), once the project cache
is populated. -/
def rootChildrenCore (localeCmp : String → String → Ordering)
    (projects : List GitLabProject) (searchQuery : String) : List TreeItemModel :=
  let filteredProjects := filteredProjectsOf projects searchQuery
  if filteredProjects = [] then
    [mkTreeItem "No projects found" NodeCtx.tag none none none none none]
  else if searchQuery = "" then rootFolderItems filteredProjects
  else jsSortBy (labelLe localeCmp) (filteredProjects.map projectSearchItem)

/-- The folder branch of getChildren (lines 224-261). -/
def folderChildren (localeCmp : String → String → Ordering)
    (projects : List GitLabProject) (fp : String) : List TreeItemModel :=
  let projectItems := (projects.filter (fun p => p.namespace_full_path = fp)).map
    (fun p => mkTreeItem p.name NodeCtx.project (some p.path_with_namespace) (some p.id)
      none none none)
  let subfolderPaths := insertionDedup
    ((projects.filter (fun p => strStartsWith p.namespace_full_path (fp ++ "/"))).map
      (fun p => fp ++ "/" ++ firstSegment (sliceFrom p.namespace_full_path (fp.data.length + 1))))
  let folderItems := subfolderPaths.map
    (fun path => mkTreeItem (lastSegment path) NodeCtx.folder (some path) none none none none)
  jsSortBy (labelLe localeCmp) (projectItems ++ folderItems)

/-- The project branch of getChildren (lines 264-276): repositories are
fetched fresh on every expansion. -/
def projectChildren (repos : List GitLabRegistryRepo) (fullPath : Option String) (pid : Nat) :
    List TreeItemModel :=
  repos.map (fun repo =>
    mkTreeItem ("Repository: " ++ repo.path) NodeCtx.repo fullPath (some pid) (some repo.id)
      none none)

/-- The environment of a getChildren call: the secret-storage token, the
configuration value, the data the remote endpoints would return, and the
locale-dependent primitives. -/
structure Env where
  token : Option String
  maxTagsToDisplay : Nat
  fetchProjectsResult : List GitLabProject
  fetchReposResult : Nat → List GitLabRegistryRepo
  fetchTagsResult : Nat → Nat → List GitLabTag
  localeCmp : String → String → Ordering
  renderDate : Int → String

/-- getChildren (lines 179-353) as a state transformer: returns the updated
provider state (cache population on miss) and the child list. -/
def getChildren (env : Env) (st : ProviderState) (element : Option TreeItemModel) :
    ProviderState × List TreeItemModel :=
  if tokenTruthy env.token = false then (st, [])
  else
    match element with
    | none =>
        let st1 :=
          if st.cachedProjects = [] then
            { st with cachedProjects := env.fetchProjectsResult,
                      persistedProjects := env.fetchProjectsResult }
          else st
        (st1, rootChildrenCore env.localeCmp st1.cachedProjects st1.searchQuery)
    | some e =>
        if e.context = NodeCtx.folder then
          match e.fullPath with
          | none => (st, [])
          | some fp => (st, folderChildren env.localeCmp st.cachedProjects fp)
        else if e.context = NodeCtx.project ∧ optNatTruthy e.projectId = true then
          let pid := e.projectId.getD 0
          (st, projectChildren (env.fetchReposResult pid) e.fullPath pid)
        else if e.context = NodeCtx.repo ∧ optNatTruthy e.projectId = true ∧
            optNatTruthy e.repoId = true then
          let pid := e.projectId.getD 0
          let rid := e.repoId.getD 0
          let projectPathStr :=
            match st.cachedProjects.find? (fun p => p.id == pid) with
            | some p => p.path_with_namespace
            | none => "undefined"
          let fetched :=
            match mapGet st.cachedTags rid with
            | some t => (st, t)
            | none =>
                ({ st with cachedTags := mapSet st.cachedTags rid (env.fetchTagsResult pid rid) },
                 env.fetchTagsResult pid rid)
          (fetched.1,
           repoChildrenFromTags env.renderDate projectPathStr e.fullPath pid rid fetched.2
             (getFilterTagsQuery fetched.1 rid) (fetched.1.showAllTagsForRepo.contains rid)
             env.maxTagsToDisplay)
        else (st, [])

/-! ## Display-cutoff configuration (claim C4) -/

/-- Modelled from the spec: the host configuration read for the display
cutoff (spec section 6; the VS Code workspace configuration itself is not
part of this repository).  A user-supplied value wins; otherwise the default
declared in the extension manifest; the fallback argument of the get call
applies only when neither exists. -/
def configGet (userValue declaredDefault : Option Nat) (codeFallback : Nat) : Nat :=
  match userValue with
  | some v => v
  | none =>
      match declaredDefault with
      | some d => d
      | none => codeFallback

/-- The default declared for gitlabRegistryExplorer.maxTagsToDisplay in the
extension manifest (src/unnamed/part_000, lines 175-179). -/
def maxTagsDeclaredDefault : Nat := 20

/-- The fallback argument of the configuration get call (extension.ts line
315). -/
def maxTagsCodeFallback : Nat := 50

/-- The value the repo branch reads for maxTagsToDisplay, as a function of
the user-level configuration. -/
def readMaxTagsToDisplay (userValue : Option Nat) : Nat :=
  configGet userValue (some maxTagsDeclaredDefault) maxTagsCodeFallback

/-! ## Concrete instances used by witnesses and counterexamples -/

/-- Detail oracle succeeding for tag a and failing for every other tag. -/
def exDetail : String → Option TagDetail :=
  fun n => if n = "a" then some { created_at := some 5, total_size := some 100 } else none

/-- Thirty name-only cached tags. -/
def tags30 : List GitLabTag :=
  (List.range 30).map (fun i => { name := "t" ++ natToStr i, created_at := none, total_size := none })

/-- A state caching the thirty tags for repository id 2. -/
def st30 : ProviderState := { initialState with cachedTags := [(2, tags30)] }

/-- A cached project. -/
def exProject : GitLabProject :=
  { id := 1, name := "app", path_with_namespace := "g/sub/app",
    namespace_full_path := "g/sub", container_registry_enabled := true }

/-- Environment with no stored credential. -/
def exEnvNoToken : Env :=
  { token := none, maxTagsToDisplay := 20, fetchProjectsResult := [],
    fetchReposResult := fun _ => [], fetchTagsResult := fun _ _ => [],
    localeCmp := fun _ _ => Ordering.eq, renderDate := fun _ => "" }

/-- Environment with a stored credential. -/
def exEnvWithToken : Env := { exEnvNoToken with token := some "t" }

/-- A state whose project cache holds one project and whose search is
unset. -/
def exStateWithProject : ProviderState := { initialState with cachedProjects := [exProject] }

/-! ## Helper lemmas -/

theorem mkTreeItem_context (l : String) (c : NodeCtx) (fp : Option String)
    (p r : Option Nat) (t i : Option String) : (mkTreeItem l c fp p r t i).context = c := rfl

theorem mkTreeItem_label (l : String) (c : NodeCtx) (fp : Option String)
    (p r : Option Nat) (t i : Option String) : (mkTreeItem l c fp p r t i).label = l := rfl

theorem mapGet_map_replace {α : Type} (m : List (Nat × α)) (k : Nat) (v : α)
    (h : m.any (fun p => p.1 == k) = true) :
    mapGet (m.map (fun p => if p.1 == k then (k, v) else p)) k = some v := by
  induction m with
  | nil => simp at h
  | cons a t ih =>
      by_cases hk : a.1 = k
      · simp [mapGet, List.find?, hk]
      · have hk' : (a.1 == k) = false := by simp [hk]
        have ht : t.any (fun p => p.1 == k) = true := by
          simpa [List.any_cons, hk'] using h
        simpa [mapGet, List.find?, hk'] using ih ht

theorem mapGet_append_single {α : Type} (m : List (Nat × α)) (k : Nat) (v : α)
    (h : m.any (fun p => p.1 == k) = false) :
    mapGet (m ++ [(k, v)]) k = some v := by
  induction m with
  | nil => simp [mapGet, List.find?]
  | cons a t ih =>
      have hk : (a.1 == k) = false := by
        by_contra hc
        simp only [Bool.not_eq_false] at hc
        simp [List.any_cons, hc] at h
      have ht : t.any (fun p => p.1 == k) = false := by
        simpa [List.any_cons, hk] using h
      simpa [mapGet, List.find?, hk] using ih ht

theorem mapGet_mapSet_self {α : Type} (m : List (Nat × α)) (k : Nat) (v : α) :
    mapGet (mapSet m k v) k = some v := by
  cases h : m.any (fun p => p.1 == k) with
  | true =>
      rw [mapSet, if_pos h]
      exact mapGet_map_replace m k v h
  | false =>
      rw [mapSet, if_neg (by simp [h])]
      exact mapGet_append_single m k v h

theorem mapGet_mapDelete_self {α : Type} (m : List (Nat × α)) (k : Nat) :
    mapGet (mapDelete m k) k = none := by
  induction m with
  | nil => rfl
  | cons a t ih =>
      by_cases hk : a.1 = k
      · have : (a.1 != k) = false := by simp [hk]
        simpa [mapDelete, List.filter, this] using ih
      · have h1 : (a.1 != k) = true := by simp [hk]
        have h2 : (a.1 == k) = false := by simp [hk]
        simpa [mapDelete, List.filter, h1, mapGet, List.find?, h2] using ih

theorem setAdd_contains_self (s : List Nat) (k : Nat) : (setAdd s k).contains k = true := by
  cases h : s.contains k with
  | true =>
      rw [setAdd, if_pos h]
      exact h
  | false =>
      rw [setAdd, if_neg (by rw [h]; exact Bool.false_ne_true)]
      simp

theorem insertOrdered_perm {α : Type} (le : α → α → Bool) (x : α) (l : List α) :
    (insertOrdered le x l).Perm (x :: l) := by
  induction l with
  | nil => simp [insertOrdered]
  | cons y ys ih =>
      simp only [insertOrdered]
      split
      · exact (ih.cons y).trans (List.Perm.swap x y ys)
      · exact List.Perm.refl _

theorem foldl_insertOrdered_perm {α : Type} (le : α → α → Bool) :
    ∀ (l acc : List α),
      (l.foldl (fun a x => insertOrdered le x a) acc).Perm (acc ++ l) := by
  intro l
  induction l with
  | nil => intro acc; simp
  | cons x xs ih =>
      intro acc
      refine ((ih (insertOrdered le x acc)).trans ?_)
      refine (((insertOrdered_perm le x acc).append_right xs).trans ?_)
      exact List.perm_middle.symm

theorem jsSortBy_perm {α : Type} (le : α → α → Bool) (l : List α) :
    (jsSortBy le l).Perm l := by
  simpa [jsSortBy] using foldl_insertOrdered_perm le l []

theorem toFixed2_twoDecimal (q : ℚ) : twoDecimalString (toFixed2 q) :=
  ⟨(⌊q * 100 + 1 / 2⌋).toNat / 100, (⌊q * 100 + 1 / 2⌋).toNat % 100,
    Nat.mod_lt _ (by norm_num), rfl⟩

theorem formatGo_snd_mem (size : ℚ) (l : List String) (h : l ≠ []) :
    (formatGo size l).2 ∈ l := by
  induction l generalizing size with
  | nil => exact absurd rfl h
  | cons u t ih =>
      cases t with
      | nil => simp [formatGo]
      | cons u2 rest =>
          simp only [formatGo]
          split
          · exact List.mem_cons_of_mem u (ih (size / 1024) (by simp))
          · exact List.mem_cons_self u _

/-! ## Claims -/

/-- C1.  The claim says a tag with an undefined creation timestamp sorts
last.  In the source (extension.ts line 438) the comparator evaluates
`new Date(b.created_at || "").getTime()`; for an undefined timestamp the
empty string parses to an Invalid Date, getTime() is NaN, the subtraction
is NaN and the ECMAScript SortCompare step treats NaN as +0, so the
undefined-timestamp tag compares equal to every other tag and the stable
sort leaves it where it was.  Evaluation at the concrete failing input
(undefined-timestamp tag listed first, then timestamps 2 and 1): the cached
order keeps the undefined-timestamp tag first, not last. -/
theorem spec_c1_sort_eval :
    sortTags [{ name := "c", created_at := none, total_size := none },
              { name := "a", created_at := some 2, total_size := none },
              { name := "b", created_at := some 1, total_size := none }] =
      [{ name := "c", created_at := none, total_size := none },
       { name := "a", created_at := some 2, total_size := none },
       { name := "b", created_at := some 1, total_size := none }] ∧
    sortTags [{ name := "c", created_at := none, total_size := none },
              { name := "a", created_at := some 2, total_size := none },
              { name := "b", created_at := some 1, total_size := none }] ≠
      [{ name := "a", created_at := some 2, total_size := none },
       { name := "b", created_at := some 1, total_size := none },
       { name := "c", created_at := none, total_size := none }] := by
  constructor
  · decide
  · decide

/-- C2 counterexample.  The claim says refresh() clears all filters
including the global project search string; at a state whose search string
is "x", the search string survives refresh (extension.ts lines 97-104 never
touch searchQuery). -/
theorem spec_c2_counterexample :
    (refresh { initialState with searchQuery := "x" }).searchQuery ≠ "" := by
  decide

/-- C2 (amended).  refresh() clears the project cache, the tag cache, the
show-all state and every per-repository tag filter, persists the now-empty
project list, and fires the change signal; the global project search string
is left unchanged. -/
theorem spec_c2_refresh (st : ProviderState) :
    (refresh st).cachedProjects = [] ∧
    (refresh st).cachedTags = [] ∧
    (refresh st).showAllTagsForRepo = [] ∧
    (refresh st).filterTagsQueries = [] ∧
    (refresh st).persistedProjects = [] ∧
    (refresh st).changeEvents = st.changeEvents + 1 ∧
    (refresh st).searchQuery = st.searchQuery :=
  ⟨rfl, rfl, rfl, rfl, rfl, rfl, rfl⟩

/-- C3 counterexample.  The claim says a whitespace-only query removes the
repository entry from the tag-filter map; in the source (lines 116-123)
`if (query)` is true for the nonempty string " ", so an entry holding the
normalised empty string is stored instead of being removed. -/
theorem spec_c3_counterexample :
    mapGet (setFilterTagsQuery initialState 1 " ").filterTagsQueries 1 ≠ none ∧
    mapGet (setFilterTagsQuery initialState 1 " ").filterTagsQueries 1 = some "" := by
  constructor
  · decide
  · decide

/-- C3 (amended).  For a query that normalises to the empty string:
setFilterTagsQuery(R, "") removes the map entry, while a whitespace-only
nonempty query stores the empty string under R; in both cases
getFilterTagsQuery(R) afterwards returns the empty string, and
clearFilterForRepo(R) removes the entry and leaves getFilterTagsQuery(R)
returning the empty string. -/
theorem spec_c3_filter_clearing (st : ProviderState) (r : Nat) (q : String)
    (hw : jsNormalizeQuery q = "") :
    (q = "" → mapGet (setFilterTagsQuery st r q).filterTagsQueries r = none) ∧
    (q ≠ "" → mapGet (setFilterTagsQuery st r q).filterTagsQueries r = some "") ∧
    getFilterTagsQuery (setFilterTagsQuery st r q) r = "" ∧
    mapGet (clearFilterForRepo st r).filterTagsQueries r = none ∧
    getFilterTagsQuery (clearFilterForRepo st r) r = "" := by
  refine ⟨?_, ?_, ?_, ?_, ?_⟩
  · intro hq
    rw [setFilterTagsQuery, if_pos hq]
    exact mapGet_mapDelete_self st.filterTagsQueries r
  · intro hq
    rw [setFilterTagsQuery, if_neg hq]
    rw [← hw]
    exact mapGet_mapSet_self st.filterTagsQueries r (jsNormalizeQuery q)
  · by_cases hq : q = ""
    · rw [getFilterTagsQuery, setFilterTagsQuery, if_pos hq]
      rw [mapGet_mapDelete_self st.filterTagsQueries r]
      rfl
    · rw [getFilterTagsQuery, setFilterTagsQuery, if_neg hq]
      rw [mapGet_mapSet_self st.filterTagsQueries r (jsNormalizeQuery q), hw]
      rfl
  · rw [clearFilterForRepo]
    exact mapGet_mapDelete_self st.filterTagsQueries r
  · rw [getFilterTagsQuery, clearFilterForRepo]
    rw [mapGet_mapDelete_self st.filterTagsQueries r]
    rfl

/-- C3 witness: the amended theorem applied at the empty and at the
whitespace-only query. -/
theorem spec_c3_witness :
    getFilterTagsQuery (setFilterTagsQuery initialState 1 " ") 1 = "" ∧
    mapGet (setFilterTagsQuery initialState 1 "").filterTagsQueries 1 = none ∧
    getFilterTagsQuery (clearFilterForRepo initialState 1) 1 = "" :=
  ⟨(spec_c3_filter_clearing initialState 1 " " (by decide)).2.2.1,
   (spec_c3_filter_clearing initialState 1 "" (by decide)).1 rfl,
   (spec_c3_filter_clearing initialState 1 "" (by decide)).2.2.2.2⟩

/-- C4.  When the user-level configuration carries no value for the display
cutoff, the value read for maxTagsToDisplay is the manifest default 20 (the
50 fallback of the get call at extension.ts line 315 is shadowed by the
default the manifest declares). -/
theorem spec_c4_default_cutoff : readMaxTagsToDisplay none = 20 := rfl

/-- C9.  In the enrichment step of fetchRegistryTags (lines 422-435) the
batch length always equals the listing length; a tag whose detail fetch
fails becomes exactly the name-only record and a tag whose detail fetch
succeeds carries the fetched fields, each position depending only on its
own detail result; and the final (sorted) fetch result is a permutation of
the enriched batch, so no tag is dropped. -/
theorem spec_c9_enrichment (detail : String → Option TagDetail) (listing : List String)
    (i : Nat) (h : i < listing.length) (h2 : i < (enrichTags detail listing).length) :
    (enrichTags detail listing).length = listing.length ∧
    (detail (listing.get ⟨i, h⟩) = none →
      (enrichTags detail listing).get ⟨i, h2⟩ =
        { name := listing.get ⟨i, h⟩, created_at := none, total_size := none }) ∧
    (∀ d, detail (listing.get ⟨i, h⟩) = some d →
      (enrichTags detail listing).get ⟨i, h2⟩ =
        { name := listing.get ⟨i, h⟩, created_at := d.created_at,
          total_size := d.total_size }) ∧
    (fetchRegistryTagsModel detail listing).Perm (enrichTags detail listing) := by
  have hg : (enrichTags detail listing).get ⟨i, h2⟩ = enrichTag detail (listing.get ⟨i, h⟩) := by
    simp [enrichTags, List.get_eq_getElem, List.getElem_map]
  refine ⟨List.length_map _ _, ?_, ?_, ?_⟩
  · intro hnone
    rw [hg, enrichTag, hnone]
  · intro d hsome
    rw [hg, enrichTag, hsome]
  · exact jsSortBy_perm tagSortLe (enrichTags detail listing)

/-- C9 witness: two listed tags, detail succeeds for the first and fails
for the second; the failed one degrades to name-only, the successful one is
fully enriched, and the batch keeps both. -/
theorem spec_c9_witness :
    (enrichTags exDetail ["a", "b"]).length = 2 ∧
    (enrichTags exDetail ["a", "b"]).get ⟨1, by decide⟩ =
      { name := "b", created_at := none, total_size := none } ∧
    (enrichTags exDetail ["a", "b"]).get ⟨0, by decide⟩ =
      { name := "a", created_at := some 5, total_size := some 100 } :=
  ⟨(spec_c9_enrichment exDetail ["a", "b"] 0 (by decide) (by decide)).1,
   (spec_c9_enrichment exDetail ["a", "b"] 1 (by decide) (by decide)).2.1 (by decide),
   (spec_c9_enrichment exDetail ["a", "b"] 0 (by decide) (by decide)).2.2.1
     { created_at := some 5, total_size := some 100 } (by decide)⟩

/-- C10.  With no credential in secret storage, getChildren returns the
empty list for the root and for every element, leaving the state (caches
and filters) untouched and performing no fetch (the result does not depend
on any of the fetch oracles). -/
theorem spec_c10_no_token (env : Env) (st : ProviderState) (e : Option TreeItemModel)
    (h : env.token = none) : getChildren env st e = (st, []) := by
  have ht : tokenTruthy env.token = false := by rw [h]; rfl
  simp [getChildren, ht]

/-- C10 witness: the theorem applied at a concrete credential-less
environment and the initial state. -/
theorem spec_c10_witness : getChildren exEnvNoToken initialState none = (initialState, []) :=
  spec_c10_no_token exEnvNoToken initialState none rfl

/-- C6.  When the active tag filter matches none of the cached tag names,
the repository branch (extension.ts lines 290-312) returns exactly the
filter-input node followed by the single placeholder node - never an empty
list. -/
theorem spec_c6_no_match (renderDate : Int → String) (pp : String) (fp : Option String)
    (pid rid : Nat) (tags : List GitLabTag) (q : String) (showAll : Bool) (maxT : Nat)
    (hq : q ≠ "")
    (hm : tags.filter (fun tag => strIncludes (lowerStr tag.name) q) = []) :
    repoChildrenFromTags renderDate pp fp pid rid tags q showAll maxT =
      [mkTreeItem ("Filter: " ++ q) NodeCtx.filter fp (some pid) (some rid) none none,
       mkTreeItem "No tags match the filter" NodeCtx.tag none none none none none] := by
  simp [repoChildrenFromTags, hq, hm]

/-- C6 witness: one cached tag named latest and the active filter zzz. -/
theorem spec_c6_witness :
    repoChildrenFromTags (fun _ => "") "" none 1 2
        [{ name := "latest", created_at := none, total_size := none }] "zzz" false 20 =
      [mkTreeItem ("Filter: " ++ "zzz") NodeCtx.filter none (some 1) (some 2) none none,
       mkTreeItem "No tags match the filter" NodeCtx.tag none none none none none] :=
  spec_c6_no_match (fun _ => "") "" none 1 2
    [{ name := "latest", created_at := none, total_size := none }] "zzz" false 20
    (by decide) (by decide)

/-- C5.  A repository with 30 cached tags, no active filter, cutoff 20 and
no show-all state resolves to 22 nodes: the filter-input node first, 20 tag
nodes, and a final show-more node reporting 10 more; after showAllTags for
that repository the same resolution yields 31 nodes (filter-input plus all
30 tags) and contains no show-more node. -/
theorem spec_c5_cutoff_counts (renderDate : Int → String) (pp : String) (fp : Option String)
    (pid rid : Nat) (st : ProviderState) (tags : List GitLabTag)
    (hc : getCachedTags st rid = tags) (h30 : tags.length = 30)
    (hq : getFilterTagsQuery st rid = "") (hs : st.showAllTagsForRepo.contains rid = false) :
    (repoChildrenFromTags renderDate pp fp pid rid (getCachedTags st rid)
        (getFilterTagsQuery st rid) (st.showAllTagsForRepo.contains rid) 20).length = 22 ∧
    (repoChildrenFromTags renderDate pp fp pid rid (getCachedTags st rid)
        (getFilterTagsQuery st rid) (st.showAllTagsForRepo.contains rid) 20).head? =
      some (mkTreeItem "Filter tags..." NodeCtx.filter fp (some pid) (some rid) none none) ∧
    (repoChildrenFromTags renderDate pp fp pid rid (getCachedTags st rid)
        (getFilterTagsQuery st rid) (st.showAllTagsForRepo.contains rid) 20).getLast? =
      some (mkTreeItem "Show All Tags… (10 more)" NodeCtx.showAllTags fp (some pid)
        (some rid) none none) ∧
    (repoChildrenFromTags renderDate pp fp pid rid (getCachedTags (showAllTags st rid) rid)
        (getFilterTagsQuery (showAllTags st rid) rid)
        ((showAllTags st rid).showAllTagsForRepo.contains rid) 20).length = 31 ∧
    (∀ x ∈ repoChildrenFromTags renderDate pp fp pid rid
        (getCachedTags (showAllTags st rid) rid)
        (getFilterTagsQuery (showAllTags st rid) rid)
        ((showAllTags st rid).showAllTagsForRepo.contains rid) 20,
      x.context ≠ NodeCtx.showAllTags) := by
  have e1 : getCachedTags (showAllTags st rid) rid = tags := hc
  have e2 : getFilterTagsQuery (showAllTags st rid) rid = "" := hq
  have e3 : (showAllTags st rid).showAllTagsForRepo.contains rid = true :=
    setAdd_contains_self st.showAllTagsForRepo rid
  rw [hc, hq, hs, e1, e2, e3]
  have hne : tags ≠ [] := by
    intro h0
    rw [h0] at h30
    exact absurd h30 (by decide)
  have hlen : (tags.take 20).length = 20 := by
    rw [List.length_take, h30]
    decide
  have hstr : "Show All Tags… (" ++ natToStr 10 ++ " more)" = "Show All Tags… (10 more)" := by
    decide
  have key1 : repoChildrenFromTags renderDate pp fp pid rid tags "" false 20 =
      mkTreeItem "Filter tags..." NodeCtx.filter fp (some pid) (some rid) none none ::
        ((tags.take 20).map (fun tag =>
          mkTreeItem (tagItemLabel renderDate tag) NodeCtx.tag fp (some pid) (some rid)
            (some tag.name) (some (tagImageUrl pp tag.name))) ++
         [mkTreeItem "Show All Tags… (10 more)" NodeCtx.showAllTags fp (some pid)
           (some rid) none none]) := by
    rw [repoChildrenFromTags]
    simp only [if_true, Bool.false_eq_true, if_false]
    rw [if_neg hne, hlen, h30]
    rw [if_pos (by decide : (0 : ℕ) < 30 - 20)]
    have h10 : (30 : ℕ) - 20 = 10 := by decide
    rw [h10, hstr]
  have key2 : repoChildrenFromTags renderDate pp fp pid rid tags "" true 20 =
      mkTreeItem "Filter tags..." NodeCtx.filter fp (some pid) (some rid) none none ::
        tags.map (fun tag =>
          mkTreeItem (tagItemLabel renderDate tag) NodeCtx.tag fp (some pid) (some rid)
            (some tag.name) (some (tagImageUrl pp tag.name))) := by
    rw [repoChildrenFromTags]
    simp only [if_true, Nat.sub_self]
    rw [if_neg hne]
    rw [if_neg (by decide : ¬ (0 : ℕ) < 0)]
    simp
  refine ⟨?_, ?_, ?_, ?_, ?_⟩
  · rw [key1]
    simp only [List.length_cons, List.length_append, List.length_map, hlen]
    decide
  · rw [key1]
    rfl
  · rw [key1, ← List.cons_append]
    exact List.getLast?_concat _
  · rw [key2]
    simp only [List.length_cons, List.length_map, h30]
  · intro x hx
    rw [key2] at hx
    rcases List.mem_cons.mp hx with hx1 | hx2
    · rw [hx1, mkTreeItem_context]
      decide
    · rcases List.mem_map.mp hx2 with ⟨tag, _, rfl⟩
      rw [mkTreeItem_context]
      decide

/-- C5 witness: the concrete state caching thirty tags for repository 2. -/
theorem spec_c5_witness :
    (repoChildrenFromTags (fun _ => "") "" none 1 2 (getCachedTags st30 2)
        (getFilterTagsQuery st30 2) (st30.showAllTagsForRepo.contains 2) 20).length = 22 ∧
    (repoChildrenFromTags (fun _ => "") "" none 1 2 (getCachedTags (showAllTags st30 2) 2)
        (getFilterTagsQuery (showAllTags st30 2) 2)
        ((showAllTags st30 2).showAllTagsForRepo.contains 2) 20).length = 31 :=
  ⟨(spec_c5_cutoff_counts (fun _ => "") "" none 1 2 st30 tags30 rfl
      (by simp [tags30]) rfl rfl).1,
   (spec_c5_cutoff_counts (fun _ => "") "" none 1 2 st30 tags30 rfl
      (by simp [tags30]) rfl rfl).2.2.2.1⟩

/-- C7.  The byte-size formatter: undefined or zero input yields the
sentinel Unknown size; 1536 yields 1.50 KB; every byte count of at least
1024 ^ 4 is rendered in TB (the loop stops at the last unit, never beyond);
and for every positive integer byte count representable exactly in an IEEE
double (below 2 ^ 53, the faithful domain of the rational model) the output
is a two-decimal number followed by one unit from the unit list. -/
theorem spec_c7_format_bytes :
    formatBytes none = "Unknown size" ∧
    formatBytes (some 0) = "Unknown size" ∧
    formatBytes (some 1536) = "1.50 KB" ∧
    (∀ B : ℕ, 1024 ^ 4 ≤ B → ∃ s, formatBytes (some (B : ℚ)) = s ++ " TB") ∧
    (∀ B : ℕ, 0 < B → B < 2 ^ 53 →
      ∃ u s, u ∈ formatBytesUnits ∧ formatBytes (some (B : ℚ)) = s ++ " " ++ u ∧
        twoDecimalString s) := by
  refine ⟨rfl, ?_, ?_, ?_, ?_⟩
  · simp [formatBytes]
  · have h1 : formatGo (1536 : ℚ) formatBytesUnits = (3 / 2, "KB") := by
      rw [formatBytesUnits, formatGo]
      rw [if_pos (by norm_num : (1024 : ℚ) ≤ 1536)]
      rw [formatGo]
      rw [if_neg (by norm_num : ¬ (1024 : ℚ) ≤ 1536 / 1024)]
      norm_num
    have h2 : (⌊(3 / 2 : ℚ) * 100 + 1 / 2⌋) = 150 := by
      rw [show (3 / 2 : ℚ) * 100 + 1 / 2 = 301 / 2 by norm_num]
      rw [Int.floor_eq_iff] <;> norm_num
    rw [formatBytes]
    rw [if_neg (by norm_num : ¬ (1536 : ℚ) = 0)]
    rw [h1, toFixed2, h2]
    decide
  · intro B hB
    have hBq : ((1024 : ℚ)) ^ 4 ≤ (B : ℚ) := by exact_mod_cast hB
    have hB0 : ¬ ((B : ℚ) = 0) := by
      have : 0 < B := lt_of_lt_of_le (by norm_num) hB
      exact_mod_cast this.ne.symm
    have step : ∀ k : ℕ, k + 1 ≤ 4 → (1024 : ℚ) ≤ (B : ℚ) / 1024 ^ k := by
      intro k hk
      rw [le_div_iff (by positivity)]
      calc (1024 : ℚ) * 1024 ^ k = 1024 ^ (k + 1) := by ring
        _ ≤ 1024 ^ 4 := pow_le_pow_right₀ (by norm_num) hk
        _ ≤ (B : ℚ) := hBq
    have c1 : (1024 : ℚ) ≤ (B : ℚ) := by
      have := step 0 (by norm_num)
      simpa using this
    have c2 : (1024 : ℚ) ≤ (B : ℚ) / 1024 := by
      have := step 1 (by norm_num)
      simpa using this
    have c3 : (1024 : ℚ) ≤ (B : ℚ) / 1024 / 1024 := by
      have := step 2 (by norm_num)
      rw [show ((1024 : ℚ)) ^ 2 = 1024 * 1024 by ring, ← div_div] at this
      exact this
    have c4 : (1024 : ℚ) ≤ (B : ℚ) / 1024 / 1024 / 1024 := by
      have := step 3 (by norm_num)
      rw [show ((1024 : ℚ)) ^ 3 = 1024 * 1024 * 1024 by ring, ← div_div, ← div_div] at this
      exact this
    refine ⟨toFixed2 ((B : ℚ) / 1024 / 1024 / 1024 / 1024), ?_⟩
    rw [formatBytes, if_neg hB0, formatBytesUnits]
    rw [formatGo, if_pos c1, formatGo, if_pos c2, formatGo, if_pos c3, formatGo, if_pos c4,
      formatGo]
    rw [String.append_assoc]
    rfl
  · intro B hB0 hB53
    have hq0 : ¬ ((B : ℚ) = 0) := by exact_mod_cast hB0.ne.symm
    refine ⟨(formatGo (B : ℚ) formatBytesUnits).2, toFixed2 (formatGo (B : ℚ) formatBytesUnits).1,
      formatGo_snd_mem (B : ℚ) formatBytesUnits (by rw [formatBytesUnits]; exact (by decide)), ?_,
      toFixed2_twoDecimal _⟩
    rw [formatBytes, if_neg hq0]

/-- C7 witness: the TB clause at exactly 1024 ^ 4 bytes and the
two-decimal-output clause at 5 bytes. -/
theorem spec_c7_witness :
    (∃ s, formatBytes (some ((1024 ^ 4 : ℕ) : ℚ)) = s ++ " TB") ∧
    (∃ u s, u ∈ formatBytesUnits ∧ formatBytes (some ((5 : ℕ) : ℚ)) = s ++ " " ++ u ∧
      twoDecimalString s) :=
  ⟨spec_c7_format_bytes.2.2.2.1 (1024 ^ 4) (le_refl _),
   spec_c7_format_bytes.2.2.2.2 5 (by decide) (by decide)⟩

/-- C8.  Setting the global search query and then clearing it restores the
observable root state: with a populated project cache the root children
after the clear equal the root children before any search was set, the root
resolution does not modify the state, and neither the global search setter
nor the per-repository filter setter touches the cached project list or the
cached tag lists. -/
theorem spec_c8_search_roundtrip (env : Env) (st : ProviderState) (q : String)
    (h0 : st.searchQuery = "") (h1 : st.cachedProjects ≠ [])
    (ht : tokenTruthy env.token = true) :
    (getChildren env (setSearchQuery (setSearchQuery st q) "") none).2 =
      (getChildren env st none).2 ∧
    (getChildren env (setSearchQuery (setSearchQuery st q) "") none).1 =
      setSearchQuery (setSearchQuery st q) "" ∧
    (setSearchQuery st q).cachedProjects = st.cachedProjects ∧
    (setSearchQuery st q).cachedTags = st.cachedTags ∧
    (∀ r fq, (setFilterTagsQuery st r fq).cachedProjects = st.cachedProjects ∧
             (setFilterTagsQuery st r fq).cachedTags = st.cachedTags) := by
  have hnf : ¬ (tokenTruthy env.token = false) := by
    rw [ht]
    decide
  have h1' : (setSearchQuery (setSearchQuery st q) "").cachedProjects ≠ [] := h1
  have hcp : (setSearchQuery (setSearchQuery st q) "").cachedProjects = st.cachedProjects := rfl
  have hsq : (setSearchQuery (setSearchQuery st q) "").searchQuery = "" := rfl
  refine ⟨?_, ?_, rfl, rfl, ?_⟩
  · simp only [getChildren, if_neg hnf]
    rw [if_neg h1', if_neg h1]
    rw [hcp, hsq, h0]
  · simp only [getChildren, if_neg hnf]
    rw [if_neg h1']
  · intro r fq
    constructor
    · rw [setFilterTagsQuery]
      split
      · rfl
      · rfl
    · rw [setFilterTagsQuery]
      split
      · rfl
      · rfl

/-- C8 witness: one cached project, search set to app and cleared again. -/
theorem spec_c8_witness :
    (getChildren exEnvWithToken
        (setSearchQuery (setSearchQuery exStateWithProject "app") "") none).2 =
      (getChildren exEnvWithToken exStateWithProject none).2 :=
  (spec_c8_search_roundtrip exEnvWithToken exStateWithProject "app" rfl (by decide)
    (by decide)).1
